import Mathlib

/-!
Shallow embedding of the nexus-keycode codec core (the `nexus_keycode`
Python package) and proofs of the specification claims about it.

Byte strings are modelled as `List Nat` (each entry a byte value `< 256`;
every primitive masks with `% 256` where the Python `bytes` type enforces
the range).  Bit streams (`bitstring.Bits`) are modelled as `List Bool`,
most-significant bit of each byte first, exactly as `bitstring` lays out
packed fields.  Decimal digit strings are modelled as `List Nat` of digit
values.
-/

namespace NexusKeycode

/-- 64-bit truncation used after every arithmetic step of SipHash. -/
def mask64 (n : Nat) : Nat := n % 2 ^ 64

/-- Rotate a 64-bit word left by `r` bits. -/
def rotl64 (x r : Nat) : Nat :=
  mask64 (x <<< r) ||| (x % 2 ^ 64) >>> (64 - r)

/-- State of the SipHash permutation: four 64-bit lanes. -/
structure SipState where
  v0 : Nat
  v1 : Nat
  v2 : Nat
  v3 : Nat
deriving DecidableEq

/-- One round of the SipHash ARX permutation (SipRound). -/
def sipRound (s : SipState) : SipState :=
  let v0 := mask64 (s.v0 + s.v1)
  let v1 := rotl64 s.v1 13
  let v1 := v1 ^^^ v0
  let v0 := rotl64 v0 32
  let v2 := mask64 (s.v2 + s.v3)
  let v3 := rotl64 s.v3 16
  let v3 := v3 ^^^ v2
  let v0 := mask64 (v0 + v3)
  let v3 := rotl64 v3 21
  let v3 := v3 ^^^ v0
  let v2 := mask64 (v2 + v1)
  let v1 := rotl64 v1 17
  let v1 := v1 ^^^ v2
  let v2 := rotl64 v2 32
  ⟨v0, v1, v2, v3⟩

/-- Iterate `sipRound` `n` times. -/
def sipRounds : Nat → SipState → SipState
  | 0, s => s
  | n + 1, s => sipRounds n (sipRound s)

/-- Read a little-endian word from a list of bytes (byte 0 is least
significant); each entry is masked to a byte. -/
def leWord (bs : List Nat) : Nat :=
  bs.foldr (fun b acc => b % 256 + 256 * acc) 0

/-- Render a value as `n` little-endian bytes (value taken mod `2^(8n)`). -/
def leBytes (n v : Nat) : List Nat :=
  (List.range n).map (fun i => v / 256 ^ i % 256)

/-- Split a byte list into its full 8-byte blocks and the trailing
partial block. -/
def chunks8 : List Nat → List (List Nat) × List Nat
  | b0 :: b1 :: b2 :: b3 :: b4 :: b5 :: b6 :: b7 :: rest =>
    let p := chunks8 rest
    ([b0, b1, b2, b3, b4, b5, b6, b7] :: p.1, p.2)
  | rest => ([], rest)

/-- Absorb one 64-bit message word with `c` compression rounds. -/
def sipAbsorb (c : Nat) (s : SipState) (m : Nat) : SipState :=
  let s := { s with v3 := s.v3 ^^^ m }
  let s := sipRounds c s
  { s with v0 := s.v0 ^^^ m }

/-- SipHash-2-4 of a byte-string message under a 16-byte key, as computed
by the `siphash` Python package used throughout the repository: returns
the 64-bit hash as a natural number. -/
def sipHash24 (key msg : List Nat) : Nat :=
  let k0 := leWord (key.take 8)
  let k1 := leWord ((key.drop 8).take 8)
  let s : SipState :=
    ⟨k0 ^^^ 0x736f6d6570736575, k1 ^^^ 0x646f72616e646f6d,
     k0 ^^^ 0x6c7967656e657261, k1 ^^^ 0x7465646279746573⟩
  let blocks := chunks8 msg
  let s := blocks.1.foldl (fun st b => sipAbsorb 2 st (leWord b)) s
  let lastWord :=
    leWord (blocks.2 ++ List.replicate (7 - blocks.2.length) 0 ++ [msg.length % 256])
  let s := sipAbsorb 2 s lastWord
  let s := { s with v2 := s.v2 ^^^ 0xff }
  let s := sipRounds 4 s
  s.v0 ^^^ s.v1 ^^^ s.v2 ^^^ s.v3

/-- The fixed all-zero 16-byte key (`b"\x00" * 16`). -/
def zeroKey16 : List Nat := List.replicate 16 0

/-- The eight bits of a byte, most significant first (the order in which
`bitstring` exposes the bits of a packed byte). -/
def byteToBits (b : Nat) : List Bool :=
  (List.range 8).map (fun i => b.testBit (7 - i))

/-- Bits of a byte string, each byte most-significant-bit first. -/
def bytesToBits (bs : List Nat) : List Bool :=
  (bs.map byteToBits).flatten

/-- Read a most-significant-bit-first bit list as an unsigned integer
(`bitstring`'s `uint` interpretation). -/
def bitsToNat (bs : List Bool) : Nat :=
  bs.foldl (fun acc b => 2 * acc + (if b then 1 else 0)) 0

/-- The value `v % 2^w` as `w` bits, most significant first
(`bitstring.pack "uint:w"`). -/
def natToBits (w v : Nat) : List Bool :=
  (List.range w).map (fun i => v.testBit (w - 1 - i))

/-- Regroup a byte-aligned bit list into bytes (`bitstring`'s `.bytes`). -/
def bitsToBytes : List Bool → List Nat
  | a :: b :: c :: d :: e :: f :: g :: h :: rest =>
    bitsToNat [a, b, c, d, e, f, g, h] :: bitsToBytes rest
  | _ => []

/-- `pseudorandom_bits(seed_bits, output_len)` from
`nexus_keycode/protocols/utils.py`: left-zero-pad the seed to whole
bytes, then emit SipHash-2-4 chunks under the all-zero key over
`byte(i) ∥ seed`, each rendered as a little-endian 64-bit word, and
return the first `output_len` bits.  The source computes
`ceil(output_len / 64) * 64` chunks before truncating. -/
def pseudorandom_bits (seedBits : List Bool) (outputLen : Nat) : List Bool :=
  let fullSeedLen := (seedBits.length + 7) / 8 * 8
  let seed := bitsToBytes (List.replicate (fullSeedLen - seedBits.length) false ++ seedBits)
  let chunk := fun (i : Nat) => bytesToBits (leBytes 8 (sipHash24 zeroKey16 (i :: seed)))
  let iterations := (outputLen + 63) / 64 * 64
  (((List.range iterations).map chunk).flatten).take outputLen

/-- Decimal value of a digit string (`int(digits)` on a string of
decimal digits). -/
def digitsToNat (ds : List Nat) : Nat :=
  ds.foldl (fun acc d => 10 * acc + d) 0

/-- Decimal digits of `n`, most significant first (fuel-driven so that it
reduces in the kernel). -/
def natDigitsAux : Nat → Nat → List Nat
  | 0, _ => []
  | fuel + 1, n => if n = 0 then [] else natDigitsAux fuel (n / 10) ++ [n % 10]

/-- Decimal representation of `n` as digits, most significant first. -/
def natDigits (n : Nat) : List Nat :=
  if n = 0 then [0] else natDigitsAux n n

/-- Python's `"{:0kd}".format(v)[-k:]`: the decimal representation of `v`
zero-padded on the left to at least `k` digits, keeping only the
right-most `k` digits. -/
def formatLast (k v : Nat) : List Nat :=
  let s := natDigits v
  let p := List.replicate (k - s.length) 0 ++ s
  p.drop (p.length - k)

/-- `full_obscure` / `full_deobscure` common core
(`nexus_keycode/protocols/utils.py`): seed the PRNG with the last 6
digits read as a little-endian 32-bit integer, then add
(`sign = 1`) or subtract (`sign = -1`) one pseudorandom byte to each of
the first `cnt` digits, mod 10. -/
def full_obscure_core (sign : Int) (cnt : Nat) (digits : List Nat) : List Nat :=
  let macInt := digitsToNat (digits.drop (digits.length - 6))
  let pr := pseudorandom_bits (bytesToBits (leBytes 4 macInt)) 64
  let prByte := fun (i : Nat) => bitsToNat ((pr.drop (8 * i)).take 8)
  List.zipWith
    (fun (i : Nat) (d : Nat) => (((d : Int) + sign * (prByte i : Int)) % 10).toNat)
    (List.range ((digits.take cnt).length))
    (digits.take cnt)
  ++ digits.drop cnt

/-- `full_obscure(digits)` with the default `obscured_digit_count = 8`. -/
def full_obscure (digits : List Nat) : List Nat := full_obscure_core 1 8 digits

/-- `full_deobscure(digits)` with the default `obscured_digit_count = 8`. -/
def full_deobscure (digits : List Nat) : List Nat := full_obscure_core (-1) 8 digits

/-- `SmallMessage.obscure` (`nexus_keycode/protocols/small.py`): XOR all
but the trailing 12 MAC bits with PRNG output seeded by those MAC bits;
the MAC bits pass through unchanged.  `SmallMessage.deobscure` is the
same function. -/
def small_obscure (bs : List Bool) : List Bool :=
  let macLen := 12
  let bodyLen := bs.length - macLen
  let macBits := bs.drop bodyLen
  let prBits := pseudorandom_bits macBits bodyLen
  List.zipWith (fun a b => xor a b) (bs.take bodyLen) prBits ++ macBits

/-- Groups of `n` consecutive elements (Python's
`[l[i*n:(i+1)*n] for i in range(ceil(len(l)/n))]`), fuel-driven. -/
def chunksOfAux (n : Nat) : Nat → List α → List (List α)
  | 0, _ => []
  | _, [] => []
  | fuel + 1, l => l.take n :: chunksOfAux n fuel (l.drop n)

/-- Groups of `n` consecutive elements of `l`. -/
def chunksOf (n : Nat) (l : List α) : List (List α) :=
  chunksOfAux n l.length l

/-- Join groups with a separator between consecutive groups
(Python's `separator.join(groups)`). -/
def joinSep (sep : List α) (groups : List (List α)) : List α :=
  (groups.intersperse sep).flatten

/-- Error kinds raised by the codec constructors. -/
inductive CodecError where
  /-- `ValueError` (out-of-range ids, unsupported days, bad lengths). -/
  | valueError : CodecError
  /-- `PossibleMessageCollisionError` (SET_CREDIT id/days guard). -/
  | possibleMessageCollision : CodecError
  /-- `ExtendedSmallMessageIdInvalidError`, recording the requested id and
  the final id named in the error message. -/
  | idInvalid (requested finalId : Nat) : CodecError
deriving DecidableEq

/-! ## Full protocol (`nexus_keycode/protocols/full.py`) -/

/-- `BaseFullMessage._generate_mac`: SipHash-2-4 over the packed
`uintle:32` full id, `uintle:8` message type and `uintle:32` body
integer, masked to the low 32 bits and rendered as the right-most 6
digits of its zero-padded decimal representation. -/
def generate_mac (secretKey : List Nat) (fullId msgType bodyInt : Nat) : List Nat :=
  formatLast 6
    (sipHash24 secretKey (leBytes 4 fullId ++ leBytes 1 msgType ++ leBytes 4 bodyInt)
      &&& 0xFFFFFFFF)

/-- A constructed `BaseFullMessage`: the fields assigned by
`BaseFullMessage.__init__`.  `msgType` is the `FullMessageType` value
(`PASSTHROUGH_COMMAND = 8`); digits are digit values 0-9. -/
structure FullMsg where
  secretKey : List Nat
  isFactory : Bool
  fullId : Nat
  msgType : Nat
  body : List Nat
  bodyInt : Nat
  header : List Nat
  mac : Option (List Nat)
deriving DecidableEq

/-- `BaseFullMessage.__init__`: slice the key to 16 bytes, parse the body
digits (empty factory body parses to 0), build the header (factory
messages omit the transmitted id; others append the low 6 bits of the id
as two decimal digits), and attach a MAC unless the message is a
`PASSTHROUGH_COMMAND`. -/
def mkBaseFullMessage (fullId msgType : Nat) (body : List Nat)
    (secretKey : List Nat) (isFactory : Bool) : FullMsg :=
  let sk := secretKey.take 16
  let bodyInt := if isFactory then (if body = [] then 0 else digitsToNat body)
                 else digitsToNat body
  let header := if isFactory then [msgType]
                else [msgType, (fullId &&& 0x3F) / 10, (fullId &&& 0x3F) % 10]
  { secretKey := sk
    isFactory := isFactory
    fullId := fullId
    msgType := msgType
    body := body
    bodyInt := bodyInt
    header := header
    mac := if msgType ≠ 8 then some (generate_mac sk fullId msgType bodyInt) else none }

/-- `BaseFullMessage.to_keycode`: concatenate header, body and MAC
digits, obscure unless the caller passed `obscured=False` or the message
is a factory message with `obscured` unset, then group the digits and
wrap them in prefix and suffix. -/
def fullToKeycode (m : FullMsg) (pre suf sep : List Char) (groupLen : Nat)
    (obscured : Option Bool) : List Char :=
  let digits := m.header ++ m.body ++ (match m.mac with | some mc => mc | none => [])
  let digits :=
    if obscured = some true ∨ (obscured ≠ some false ∧ m.isFactory = false) then
      full_obscure digits
    else digits
  pre ++ joinSep sep (chunksOf groupLen (digits.map Nat.digitChar)) ++ suf

/-! ## Small protocol (`nexus_keycode/protocols/small.py`) -/

/-- `SmallMessage._generate_mac_bits`: SipHash-2-4 over the 6-byte
struct (little-endian 32-bit id, type byte, body byte), keeping the top
12 bits of the hash as MSB-first MAC bits. -/
def smallGenerateMacBits (secretKey : List Nat) (id_ msgType body : Nat) : List Bool :=
  natToBits 12
    (sipHash24 secretKey
      [id_ &&& 0xFF, (id_ &&& 0x0000FF00) >>> 8, (id_ &&& 0x00FF0000) >>> 16,
       id_ >>> 24, msgType, body]
      >>> 52)

/-- `SmallMessage.__init__` for non-passthrough messages (`message_type`
0, 2 or 3): validate the id range and type code, then pack 6 id bits,
2 type bits, 8 body bits and the 12 MAC bits (the key sliced to its
first 16 bytes).  The passthrough branch takes a bit payload instead and
is modelled separately by `passthroughSmallMessage`. -/
def mkSmallMessage (id_ msgType body : Nat) (secretKey : List Nat) :
    Except CodecError (List Bool) :=
  if id_ > 4294967295 then .error .valueError
  else if msgType ≥ 4 then .error .valueError
  else if msgType = 1 then .error .valueError
  else .ok (natToBits 6 (id_ &&& 0x3F) ++ natToBits 2 msgType ++ natToBits 8 body
            ++ smallGenerateMacBits (secretKey.take 16) id_ msgType body)

/-- `PassthroughSmallMessage.__init__` feeding the passthrough branch of
`SmallMessage.__init__`: require exactly 26 payload bits and splice the
fixed type code `0b01` after the first six. -/
def passthroughSmallMessage (bits : List Bool) : Except CodecError (List Bool) :=
  if bits.length ≠ 26 then .error .valueError
  else .ok (bits.take 6 ++ natToBits 2 1 ++ bits.drop 6)

/-- `SmallMessage.to_keycode`: optionally obscure the 28 bits, read them
as 14 two-bit digits, map each through the key table, prepend the prefix
and group with the separator.  An empty prefix raises. -/
def smallToKeycode (bits : List Bool) (pre : List Char) (sep : List Char)
    (groupLen : Nat) (keyDict : Nat → Char) (obscured : Bool) :
    Except CodecError (List Char) :=
  if pre = [] then .error .valueError
  else
    let outBits := if obscured then small_obscure bits else bits
    let digits := (chunksOf 2 outBits).map bitsToNat
    .ok (joinSep sep (chunksOf groupLen (pre ++ digits.map keyDict)))

/-- The default key table `{0: "2", 1: "3", 2: "4", 3: "5"}`. -/
def defaultKeyDict (n : Nat) : Char := Nat.digitChar (n + 2)

/-- Argument accepted by the credit message builders: either an integer
number of days or the `UNLOCK_FLAG` sentinel. -/
inductive DaysArg where
  | num (n : Int) : DaysArg
  | unlock : DaysArg
deriving DecidableEq

/-- `SetCreditSmallMessage.generate_body`: the piecewise days-to-
increment-id mapping of the source, including the `days == 0` lock case
and the `UNLOCK_FLAG` sentinel. -/
def setCreditGenerateBody : DaysArg → Except CodecError Nat
  | .num n =>
    if 1 ≤ n ∧ n ≤ 90 then .ok (n - 1).toNat
    else if 91 ≤ n ∧ n ≤ 180 then .ok ((n - 91).fdiv 2 + 90).toNat
    else if 181 ≤ n ∧ n ≤ 360 then .ok ((n - 181).fdiv 4 + 135).toNat
    else if 361 ≤ n ∧ n ≤ 720 then .ok ((n - 361).fdiv 8 + 180).toNat
    else if 721 ≤ n ∧ n ≤ 960 then .ok ((n - 721).fdiv 16 + 225).toNat
    else if n = 0 then .ok 254
    else .error .valueError
  | .unlock => .ok 255

/-- `SetCreditSmallMessage.__init__`: the legacy-test-code collision
guard, then the body mapping, then the generic small-message packing
with type code `SET_CREDIT = 2`. -/
def setCreditSmallMessage (id_ : Nat) (days : DaysArg) (secretKey : List Nat) :
    Except CodecError (List Bool) :=
  if id_ &&& 0x3F = 63 ∧ days = .num 1 then .error .possibleMessageCollision
  else do
    let body ← setCreditGenerateBody days
    mkSmallMessage id_ 2 body secretKey

/-! ## Extended Small messages (`ExtendedSmallMessage`) -/

/-- The `SET_CREDIT_WIPE_RESTRICTED_FLAG` extended type: (type code,
number of transmitted truncated-id bits). -/
def extTypeSetCreditWipeRestrictedFlag : Nat × Nat := (0, 2)

/-- `ExtendedSmallMessage._compute_auth`: SipHash-2-4 over the 7-byte
packed `uintle:32` full id, `uintle:8` extended type code and
`uintle:16` body value (the 10 body bits zero-extended), keeping the top
12 bits. -/
def extComputeAuth (fullId : Nat) (typeCode : Nat) (body : List Bool)
    (secretKey : List Nat) : Nat :=
  sipHash24 secretKey
    (leBytes 4 fullId ++ leBytes 1 typeCode ++ leBytes 2 (bitsToNat body)) >>> 52

/-- `ExtendedSmallMessage.compute_auth_with_no_collisions`: scan the
clamped receive window `[max(id - 23, 0), min(id + 40, 65535)]`; any
distinct id in the window sharing the transmitted id bits
(`(id - i) mod 2^idBits = 0`) and the same 12-bit auth makes the scan
return `none`, otherwise the requested id's auth is returned. -/
def extComputeAuthNoCollisions (requestedId : Nat) (ty : Nat × Nat)
    (body : List Bool) (secretKey : List Nat) : Option Nat :=
  let step : Int := (2 : Int) ^ ty.2
  let candidate := extComputeAuth requestedId ty.1 body secretKey
  let minWindowId := max (requestedId - 23) 0
  let maxWindowId := min (requestedId + 40) 65535
  if (List.range' minWindowId (maxWindowId + 1 - minWindowId)).any
      (fun i =>
        decide (((requestedId : Int) - (i : Int)) % step = 0) &&
        decide (i ≠ requestedId) &&
        decide (extComputeAuth i ty.1 body secretKey = candidate))
  then none
  else some candidate

/-- `ExtendedSmallMessage.generate_set_credit_wipe_restricted_flag_body`:
2 truncated id bits followed by the 8-bit SET_CREDIT increment id. -/
def extWipeBody (id_ : Nat) (days : DaysArg) : Except CodecError (List Bool) := do
  let incrementId ← setCreditGenerateBody days
  .ok (natToBits 2 (id_ &&& 0b11) ++ natToBits 8 incrementId)

/-- The collision-avoidance loop of `ExtendedSmallMessage.__init__`:
starting at the requested id, recompute the body and auth, advancing the
id by one while the auth scan reports a collision and the id stays below
`requested + 40`.  Returns the final id and, when the loop found one,
the body bits and auth.  `fuel` bounds the recursion; the constructor
calls it with enough fuel that the guard, not the fuel, stops the
loop. -/
def extSearchAux (startId : Nat) (days : DaysArg) (secretKey : List Nat) :
    Nat → Nat → Except CodecError (Nat × Option (List Bool × Nat))
  | 0, finalId => .ok (finalId, none)
  | fuel + 1, finalId =>
    if finalId < startId + 40 then do
      let bodyBits ← extWipeBody finalId days
      match extComputeAuthNoCollisions finalId extTypeSetCreditWipeRestrictedFlag
          bodyBits secretKey with
      | some auth => .ok (finalId, some (bodyBits, auth))
      | none => extSearchAux startId days secretKey fuel (finalId + 1)
    else .ok (finalId, none)

/-- `ExtendedSmallMessage.__init__` for
`SET_CREDIT_WIPE_RESTRICTED_FLAG`: run the collision-avoidance loop,
raise `ExtendedSmallMessageIdInvalidError` whenever the final id differs
from the requested one (naming both ids, as the error message does),
otherwise pack app-id bit, 3 type bits, 10 body bits and 12 auth bits
into a passthrough small message.  Returns the 28 transmitted bits and
the recorded final message id. -/
def extendedSmallMessage (id_ : Nat) (days : DaysArg) (secretKey : List Nat) :
    Except CodecError (List Bool × Nat) := do
  let r ← extSearchAux id_ days secretKey 41 id_
  if r.1 ≠ id_ then .error (.idInvalid id_ r.1)
  else
    match r.2 with
    | some (bodyBits, auth) => do
      let bits := natToBits 1 1 ++ natToBits 3 extTypeSetCreditWipeRestrictedFlag.1
                  ++ bodyBits ++ natToBits 12 auth
      let msgBits ← passthroughSmallMessage bits
      .ok (msgBits, r.1)
    | none => .error .valueError

/-! ## Channel Origin commands
(`nexus_keycode/protocols/nexus_channel_origin_commands.py`) -/

/-- `ChannelOriginCommandToken.digits_from_siphash` with the default
6 digits: mask the hash to 32 bits and keep the right-most 6 digits of
its zero-padded decimal form. -/
def digitsFromSiphash (hash : Nat) : List Nat :=
  formatLast 6 (hash &&& 0xFFFFFFFF)

/-- An ASCII-digits `ChannelOriginCommandToken`: type code, body digits
and the raw 64-bit auth hash (digits derived on demand, as in the
source). -/
structure OriginToken where
  typeCode : Nat
  bodyDigits : List Nat
  authHash : Nat
deriving DecidableEq

/-- `ChannelOriginCommandToken.to_digits` for the ASCII bearer: type
code digit, body digits, auth digits. -/
def originTokenToDigits (t : OriginToken) : List Nat :=
  t.typeCode :: (t.bodyDigits ++ digitsFromSiphash t.authHash)

/-- `LinkCommandToken.challenge_mode_3`: derive the 6 challenge digits
with the accessory key over the little-endian accessory command count,
truncate the accessory device id to one decimal digit, then authenticate
`u32_le(controller count) ∥ u8(9) ∥ u8(truncated id) ∥
u32_le(challenge digits as integer)` under the controller key. -/
def challenge_mode_3 (accessoryAspId controllerCommandCount accessoryCommandCount : Nat)
    (accessorySymKey controllerSymKey : List Nat) : OriginToken :=
  let accessoryAuth := sipHash24 accessorySymKey (leBytes 4 accessoryCommandCount)
  let accessoryAuthDigits := digitsFromSiphash accessoryAuth
  let truncDeviceId := (accessoryAspId &&& 0xFFFFFFFF) % 10
  let packedAuthInputs :=
    leBytes 4 controllerCommandCount ++ leBytes 1 9 ++ leBytes 1 truncDeviceId
      ++ leBytes 4 (digitsToNat accessoryAuthDigits)
  { typeCode := 9
    bodyDigits := truncDeviceId :: accessoryAuthDigits
    authHash := sipHash24 controllerSymKey packedAuthInputs }

/-! ## UART passthrough key derivation
(`nexus_keycode/protocols/passthrough_uart.py`) -/

/-- `compute_uart_security_key` as written in the source: split the key
in half, SipHash each half under the all-zero key, and return
`hash_part_a + hash_part_b` — the *arithmetic sum* of the two 64-bit
hash integers (`.hash()` returns an `int`). -/
def compute_uart_security_key (secretKey : List Nat) : Nat :=
  let keyPartA := secretKey.take (secretKey.length / 2)
  let keyPartB := secretKey.drop (secretKey.length / 2)
  sipHash24 zeroKey16 keyPartA + sipHash24 zeroKey16 keyPartB

/-- The UART security key as the claim (and §4.7 of the spec, and the
repository's own `test_passthrough_uart`) describe it: the 8 little-
endian bytes of SipHash-2-4 over bytes 0..8 of the secret key under the
all-zero key, followed by the 8 little-endian bytes of SipHash-2-4 over
bytes 8..16. -/
def uartSecurityKeyClaim (secretKey : List Nat) : List Nat :=
  leBytes 8 (sipHash24 zeroKey16 ((secretKey.take 8)))
    ++ leBytes 8 (sipHash24 zeroKey16 ((secretKey.drop 8).take 8))

/-! ## Claim-side (specification) definitions used for refinement claims -/

/-- The SET_CREDIT days-to-increment-id table exactly as the claim
states it: the five day ranges (with the newer 960-day maximum), then
`days = 0` mapping to 254, the UNLOCK sentinel mapping to 255, and every
other integer rejected. -/
def setCreditBodyClaim : DaysArg → Except CodecError Nat
  | .num n =>
    if n = 0 then .ok 254
    else if 1 ≤ n ∧ n ≤ 90 then .ok (n - 1).toNat
    else if 91 ≤ n ∧ n ≤ 180 then .ok ((n - 91).fdiv 2 + 90).toNat
    else if 181 ≤ n ∧ n ≤ 360 then .ok ((n - 181).fdiv 4 + 135).toNat
    else if 361 ≤ n ∧ n ≤ 720 then .ok ((n - 361).fdiv 8 + 180).toNat
    else if 721 ≤ n ∧ n ≤ 960 then .ok ((n - 721).fdiv 16 + 225).toNat
    else .error .valueError
  | .unlock => .ok 255

/-- The Full-protocol MAC digits exactly as the claim states them: pack
the 9 bytes `u32_le(full_id) ∥ u8(message_type) ∥ u32_le(body_int)`
(`body_int` 0 for an empty body), hash with SipHash-2-4 under the first
16 bytes of the secret key, reduce the hash modulo `2^32` and keep the
right-most 6 digits of the zero-left-padded decimal rendering. -/
def fullMacClaim (secretKey : List Nat) (fullId msgType : Nat) (body : List Nat) :
    List Nat :=
  let bodyInt := if body = [] then 0 else digitsToNat body
  formatLast 6
    (sipHash24 (secretKey.take 16)
      (leBytes 4 fullId ++ [msgType % 256] ++ leBytes 4 bodyInt) % 2 ^ 32)

/-- The Link Mode 3 token digits exactly as the claim states them:
digit 9, one truncated-device-id digit, 6 challenge digits from the
accessory key over the little-endian accessory command count, then 6
outer MAC digits from the controller key over the 10-byte input
`u32_le(controller count) ∥ u8(9) ∥ u8(truncated id) ∥
u32_le(challenge digits as integer)`. -/
def linkMode3Claim (accessoryAspId controllerCommandCount accessoryCommandCount : Nat)
    (accessorySymKey controllerSymKey : List Nat) : List Nat :=
  let challengeDigits :=
    formatLast 6 (sipHash24 accessorySymKey (leBytes 4 accessoryCommandCount) % 2 ^ 32)
  let truncDeviceId := (accessoryAspId &&& 0xFFFFFFFF) % 10
  let outerMac :=
    formatLast 6
      (sipHash24 controllerSymKey
        (leBytes 4 controllerCommandCount ++ [9] ++ [truncDeviceId]
          ++ leBytes 4 (digitsToNat challengeDigits)) % 2 ^ 32)
  9 :: truncDeviceId :: (challengeDigits ++ outerMac)

/-! ## Helper lemmas -/

theorem land_ffffffff (n : Nat) : n &&& 0xFFFFFFFF = n % 2 ^ 32 := by
  have : (0xFFFFFFFF : Nat) = 2 ^ 32 - 1 := by norm_num
  rw [this, Nat.and_pow_two_sub_one_eq_mod]

theorem leBytes_one (v : Nat) : leBytes 1 v = [v % 256] := by
  simp [leBytes, List.range_succ]

theorem length_leBytes (n v : Nat) : (leBytes n v).length = n := by
  simp [leBytes]

theorem length_byteToBits (b : Nat) : (byteToBits b).length = 8 := by
  simp [byteToBits]

theorem length_bytesToBits : ∀ bs : List Nat, (bytesToBits bs).length = 8 * bs.length
  | [] => rfl
  | b :: bs => by
    have ih := length_bytesToBits bs
    simp only [bytesToBits, List.map_cons, List.flatten_cons, List.length_append,
      length_byteToBits, List.length_cons] at *
    omega

theorem length_pseudorandom_bits (seed : List Bool) (n : Nat) :
    (pseudorandom_bits seed n).length = n := by
  simp only [pseudorandom_bits, List.length_take, List.length_flatten]
  have hmap : ((List.range ((n + 63) / 64 * 64)).map
      (fun i => bytesToBits (leBytes 8 (sipHash24 zeroKey16
        (i :: bitsToBytes (List.replicate ((seed.length + 7) / 8 * 8 - seed.length)
          false ++ seed)))))).map List.length
      = List.replicate ((n + 63) / 64 * 64) 64 := by
    rw [List.map_map]
    rw [List.eq_replicate_iff]
    refine ⟨by simp, ?_⟩
    intro x hx
    simp only [List.mem_map, Function.comp] at hx
    obtain ⟨i, _, hix⟩ := hx
    rw [← hix, length_bytesToBits, length_leBytes]
  rw [hmap, List.sum_replicate, smul_eq_mul]
  omega

theorem zipWith_xor_cancel : ∀ (xs ys : List Bool), xs.length = ys.length →
    List.zipWith (fun a b => xor a b) (List.zipWith (fun a b => xor a b) xs ys) ys = xs
  | [], [], _ => rfl
  | [], _ :: _, h => by simp at h
  | _ :: _, [], h => by simp at h
  | x :: xs, y :: ys, h => by
    have ih := zipWith_xor_cancel xs ys (by simpa using h)
    simp only [List.zipWith_cons_cons, ih, List.cons.injEq, and_true]
    cases x <;> cases y <;> rfl

theorem take_append_left {α : Type} {A B : List α} {n : Nat} (h : A.length = n) :
    (A ++ B).take n = A := List.take_left' h

theorem drop_append_left {α : Type} {A B : List α} {n : Nat} (h : A.length = n) :
    (A ++ B).drop n = B := List.drop_left' h

/-- The PRNG byte used for digit `i` of the Full obscuring transform. -/
def fullPrByte (macInt i : Nat) : Nat :=
  bitsToNat (((pseudorandom_bits (bytesToBits (leBytes 4 macInt)) 64).drop (8 * i)).take 8)

theorem full_obscure_core_eq (sign : Int) (ds : List Nat) (h14 : ds.length = 14) :
    full_obscure_core sign 8 ds =
      List.zipWith
        (fun (i : Nat) (d : Nat) =>
          (((d : Int) + sign * (fullPrByte (digitsToNat (ds.drop 8)) i : Int)) % 10).toNat)
        (List.range 8) (ds.take 8) ++ ds.drop 8 := by
  simp only [full_obscure_core, fullPrByte, h14, List.length_take]
  norm_num

theorem length_full_obscure_core (sign : Int) (ds : List Nat) (h14 : ds.length = 14) :
    (full_obscure_core sign 8 ds).length = 14 := by
  rw [full_obscure_core_eq sign ds h14]
  simp only [List.length_append, List.length_zipWith, List.length_range, List.length_take,
    List.length_drop, h14]
  omega

theorem drop_full_obscure_core (sign : Int) (ds : List Nat) (h14 : ds.length = 14) :
    (full_obscure_core sign 8 ds).drop 8 = ds.drop 8 := by
  rw [full_obscure_core_eq sign ds h14]
  apply drop_append_left
  simp only [List.length_zipWith, List.length_range, List.length_take, h14]
  omega

theorem zip_sign_cancel (n : Nat) (t : List Nat) (P : Nat → Nat) (hn : t.length = n)
    (ht : ∀ d ∈ t, d < 10) :
    List.zipWith (fun (i : Nat) (d : Nat) => (((d : Int) + (-1) * (P i : Int)) % 10).toNat)
      (List.range n)
      (List.zipWith (fun (i : Nat) (d : Nat) => (((d : Int) + 1 * (P i : Int)) % 10).toNat)
        (List.range n) t)
      = t := by
  apply List.ext_getElem
  · simp [hn]
  · intro i h1 h2
    simp only [List.getElem_zipWith, List.getElem_range]
    have hlt : t[i] < 10 := ht t[i] (List.getElem_mem h2)
    omega

theorem full_obscure_core_cancel (ds : List Nat) (h14 : ds.length = 14)
    (hd : ∀ d ∈ ds, d < 10) :
    full_obscure_core (-1) 8 (full_obscure_core 1 8 ds) = ds := by
  have hOlen : (full_obscure_core 1 8 ds).length = 14 := length_full_obscure_core 1 ds h14
  have hdropO : (full_obscure_core 1 8 ds).drop 8 = ds.drop 8 :=
    drop_full_obscure_core 1 ds h14
  have htl : (ds.take 8).length = 8 := by simp [List.length_take, h14]
  have htakeO : (full_obscure_core 1 8 ds).take 8
      = List.zipWith
          (fun (i : Nat) (d : Nat) =>
            (((d : Int) + 1 * (fullPrByte (digitsToNat (ds.drop 8)) i : Int)) % 10).toNat)
          (List.range 8) (ds.take 8) := by
    rw [full_obscure_core_eq 1 ds h14]
    exact take_append_left (by simp only [List.length_zipWith, List.length_range, htl]; omega)
  rw [full_obscure_core_eq (-1) _ hOlen, hdropO, htakeO]
  rw [zip_sign_cancel 8 (ds.take 8) (fullPrByte (digitsToNat (ds.drop 8))) htl
    (fun d hdm => hd d (List.take_subset 8 ds hdm))]
  exact List.take_append_drop 8 ds

theorem small_obscure_eq (bs : List Bool) (h28 : bs.length = 28) :
    small_obscure bs =
      List.zipWith (fun a b => xor a b) (bs.take 16) (pseudorandom_bits (bs.drop 16) 16)
        ++ bs.drop 16 := by
  simp only [small_obscure, h28]

theorem small_obscure_zip_length (bs : List Bool) (h28 : bs.length = 28) :
    (List.zipWith (fun a b => xor a b) (bs.take 16)
      (pseudorandom_bits (bs.drop 16) 16)).length = 16 := by
  simp only [List.length_zipWith, List.length_take, length_pseudorandom_bits, h28]
  omega

theorem length_small_obscure (bs : List Bool) (h28 : bs.length = 28) :
    (small_obscure bs).length = 28 := by
  rw [small_obscure_eq bs h28]
  simp only [List.length_append, small_obscure_zip_length bs h28, List.length_drop, h28]

theorem drop_small_obscure (bs : List Bool) (h28 : bs.length = 28) :
    (small_obscure bs).drop 16 = bs.drop 16 := by
  rw [small_obscure_eq bs h28]
  exact drop_append_left (small_obscure_zip_length bs h28)

theorem small_obscure_cancel (bs : List Bool) (h28 : bs.length = 28) :
    small_obscure (small_obscure bs) = bs := by
  have hO : (small_obscure bs).length = 28 := length_small_obscure bs h28
  have hdropO : (small_obscure bs).drop 16 = bs.drop 16 := drop_small_obscure bs h28
  have htakeO : (small_obscure bs).take 16
      = List.zipWith (fun a b => xor a b) (bs.take 16) (pseudorandom_bits (bs.drop 16) 16) := by
    rw [small_obscure_eq bs h28]
    exact take_append_left (small_obscure_zip_length bs h28)
  rw [small_obscure_eq _ hO, hdropO, htakeO]
  rw [zipWith_xor_cancel (bs.take 16) (pseudorandom_bits (bs.drop 16) 16)
    (by simp [List.length_take, length_pseudorandom_bits, h28])]
  exact List.take_append_drop 16 bs

/-! ## Claim theorems -/

/-- C4: obscuring is self-inverting.  For every string of 14 decimal
digits `d`, `full_deobscure(full_obscure(d)) = d`, and for every 28-bit
sequence `b`, applying `SmallMessage.obscure` twice returns `b`. -/
theorem claim_obscure_round_trip :
    (∀ ds : List Nat, ds.length = 14 → (∀ d ∈ ds, d < 10) →
      full_deobscure (full_obscure ds) = ds)
    ∧ (∀ bs : List Bool, bs.length = 28 → small_obscure (small_obscure bs) = bs) :=
  ⟨fun ds h14 hd => full_obscure_core_cancel ds h14 hd,
   fun bs h28 => small_obscure_cancel bs h28⟩

/-- Witness for C4 at the concrete inputs `12345678901250` and the
all-ones 28-bit sequence. -/
theorem claim_obscure_round_trip_witness :
    full_deobscure (full_obscure [1, 2, 3, 4, 5, 6, 7, 8, 9, 0, 1, 2, 5, 0])
      = [1, 2, 3, 4, 5, 6, 7, 8, 9, 0, 1, 2, 5, 0]
    ∧ small_obscure (small_obscure (List.replicate 28 true)) = List.replicate 28 true :=
  ⟨claim_obscure_round_trip.1 _ (by decide) (by decide),
   claim_obscure_round_trip.2 _ (by decide)⟩

/-- C5: obscuring never modifies the trailing authentication field.  For
every 14-digit input the last 6 digits of `full_obscure` and of
`full_deobscure` are unchanged (the output again having 14 digits), and
for every 28-bit input the last 12 bits of `SmallMessage.obscure` are
unchanged (the output again having 28 bits). -/
theorem claim_obscure_preserves_mac :
    (∀ ds : List Nat, ds.length = 14 →
      (full_obscure ds).length = 14 ∧ (full_obscure ds).drop 8 = ds.drop 8
      ∧ (full_deobscure ds).length = 14 ∧ (full_deobscure ds).drop 8 = ds.drop 8)
    ∧ (∀ bs : List Bool, bs.length = 28 →
      (small_obscure bs).length = 28 ∧ (small_obscure bs).drop 16 = bs.drop 16) :=
  ⟨fun ds h14 => ⟨length_full_obscure_core 1 ds h14, drop_full_obscure_core 1 ds h14,
     length_full_obscure_core (-1) ds h14, drop_full_obscure_core (-1) ds h14⟩,
   fun bs h28 => ⟨length_small_obscure bs h28, drop_small_obscure bs h28⟩⟩

/-- Witness for C5 at the concrete inputs `00000000524232` and the
alternating 28-bit sequence. -/
theorem claim_obscure_preserves_mac_witness :
    ((full_obscure [0, 0, 0, 0, 0, 0, 0, 0, 5, 2, 4, 2, 3, 2]).length = 14
      ∧ (full_obscure [0, 0, 0, 0, 0, 0, 0, 0, 5, 2, 4, 2, 3, 2]).drop 8
          = [0, 0, 0, 0, 0, 0, 0, 0, 5, 2, 4, 2, 3, 2].drop 8
      ∧ (full_deobscure [0, 0, 0, 0, 0, 0, 0, 0, 5, 2, 4, 2, 3, 2]).length = 14
      ∧ (full_deobscure [0, 0, 0, 0, 0, 0, 0, 0, 5, 2, 4, 2, 3, 2]).drop 8
          = [0, 0, 0, 0, 0, 0, 0, 0, 5, 2, 4, 2, 3, 2].drop 8)
    ∧ ((small_obscure (List.replicate 14 true ++ List.replicate 14 false)).length = 28
      ∧ (small_obscure (List.replicate 14 true ++ List.replicate 14 false)).drop 16
          = (List.replicate 14 true ++ List.replicate 14 false).drop 16) :=
  ⟨claim_obscure_preserves_mac.1 _ (by decide),
   claim_obscure_preserves_mac.2 _ (by decide)⟩

/-- C7: for every id whose low 6 bits equal 63 and every secret key,
constructing a Small SET_CREDIT message with `days = 1` raises the
possible-message-collision error and produces no message. -/
theorem claim_set_credit_collision_guard (id_ : Nat) (secretKey : List Nat)
    (h : id_ &&& 0x3F = 63) :
    setCreditSmallMessage id_ (.num 1) secretKey = .error .possibleMessageCollision := by
  simp [setCreditSmallMessage, h]

/-- Witness for C7 at `id = 63` with the all-0xFF key. -/
theorem claim_set_credit_collision_guard_witness :
    (63 &&& 0x3F = 63)
    ∧ setCreditSmallMessage 63 (.num 1) (List.replicate 16 0xFF)
        = .error .possibleMessageCollision :=
  ⟨by decide, claim_set_credit_collision_guard 63 (List.replicate 16 0xFF) (by decide)⟩

/-- C8: the Small SET_CREDIT days-to-increment-id mapping agrees exactly
with the claimed piecewise table (ranges 1..90, 91..180, 181..360,
361..720, 721..960, the 0 lock case, the UNLOCK sentinel, and an error
for every other integer). -/
theorem claim_set_credit_body_mapping :
    ∀ d : DaysArg, setCreditGenerateBody d = setCreditBodyClaim d := by
  intro d
  cases d with
  | unlock => rfl
  | num n =>
    simp only [setCreditGenerateBody, setCreditBodyClaim]
    split_ifs <;> first | rfl | omega

/-- C10: the Extended Small collision scan clamps its window.  The scan
reports a collision (returns `none`) exactly when some id distinct from
the requested one, inside `[max(requested - 23, 0),
min(requested + 40, 65535)]` and agreeing on the transmitted id bits,
has the same 12-bit auth — so a collision at an id outside the clamped
range is never detected. -/
theorem claim_ext_window_clamped (requestedId : Nat) (ty : Nat × Nat)
    (body : List Bool) (secretKey : List Nat) :
    extComputeAuthNoCollisions requestedId ty body secretKey = none ↔
      ∃ i, max (requestedId - 23) 0 ≤ i ∧ i ≤ min (requestedId + 40) 65535 ∧
        i ≠ requestedId ∧
        ((requestedId : Int) - (i : Int)) % (2 : Int) ^ ty.2 = 0 ∧
        extComputeAuth i ty.1 body secretKey
          = extComputeAuth requestedId ty.1 body secretKey := by
  simp only [extComputeAuthNoCollisions]
  split_ifs with h
  · refine iff_of_true rfl ?_
    obtain ⟨x, hmem, hx⟩ := List.any_eq_true.mp h
    rw [List.mem_range'] at hmem
    obtain ⟨j, hjlt, hxeq⟩ := hmem
    simp only [Bool.and_eq_true, decide_eq_true_eq] at hx
    obtain ⟨⟨h1, h2⟩, h3⟩ := hx
    exact ⟨x, by omega, by omega, h2, h1, h3⟩
  · refine iff_of_false (by simp) ?_
    rintro ⟨i, hb1, hb2, hne, hmod, heq⟩
    apply h
    rw [List.any_eq_true]
    refine ⟨i, ?_, ?_⟩
    · rw [List.mem_range']
      exact ⟨i - max (requestedId - 23) 0, by omega, by omega⟩
    · simp only [Bool.and_eq_true, decide_eq_true_eq]
      exact ⟨⟨hmod, hne⟩, heq⟩

/-- C2 (divergence of the code from the claim, the spec and the
repository's own test): at the spec's concrete vector
`secret_key = 0x00 .. 0x0F`, the claimed derivation yields the 16 bytes
`38 79 2F FC 24 1C 2B C7 C8 CB F6 24 59 3B 57 63`, while
`compute_uart_security_key` returns the arithmetic *sum* of the two
64-bit hash integers — a single integer, not those 16 bytes. -/
theorem claim_uart_key_divergence :
    uartSecurityKeyClaim (List.range 16)
      = [0x38, 0x79, 0x2F, 0xFC, 0x24, 0x1C, 0x2B, 0xC7,
         0xC8, 0xCB, 0xF6, 0x24, 0x59, 0x3B, 0x57, 0x63]
    ∧ sipHash24 zeroKey16 ((List.range 16).take 8) = 0xC72B1C24FC2F7938
    ∧ sipHash24 zeroKey16 ((List.range 16).drop 8) = 0x63573B5924F6CBC8
    ∧ compute_uart_security_key (List.range 16)
        = 0xC72B1C24FC2F7938 + 0x63573B5924F6CBC8
    ∧ compute_uart_security_key (List.range 16)
        ≠ leWord (uartSecurityKeyClaim (List.range 16)) :=
  ⟨by decide, by decide, by decide, by decide, by decide⟩

/-- C3 (divergence of the code from the claim): with
`requested id = 190`, `days = 30` and the 0xAB×16 key, the requested id
collides inside the receive window, the very next id 191 is
collision-free and lies within `requested + 40`, yet the constructor
raises `ExtendedSmallMessageIdInvalidError` (naming requested id 190 and
next valid id 191) instead of producing the message with the advanced
id. -/
theorem claim_extended_collision_behavior :
    extendedSmallMessage 190 (.num 30) (List.replicate 16 0xAB)
        = .error (.idInvalid 190 191)
    ∧ extComputeAuthNoCollisions 190 extTypeSetCreditWipeRestrictedFlag
        (natToBits 2 (190 &&& 0b11) ++ natToBits 8 29) (List.replicate 16 0xAB) = none
    ∧ (extComputeAuthNoCollisions 191 extTypeSetCreditWipeRestrictedFlag
        (natToBits 2 (191 &&& 0b11) ++ natToBits 8 29) (List.replicate 16 0xAB)).isSome
          = true
    ∧ 191 ≤ 190 + 40 :=
  ⟨by rfl, by decide, by decide, by decide⟩

/-- C1: for every Full-protocol message whose type is not
PASSTHROUGH_COMMAND, the 6 MAC digits equal the claimed derivation: hash
the 9 bytes `u32_le(full_id) ∥ u8(message_type) ∥ u32_le(body_int)`
(`body_int` parsed from the body digits, 0 when empty) with SipHash-2-4
under the first 16 bytes of the secret key, reduce modulo `2^32`, and
keep the right-most 6 digits of the zero-left-padded decimal form. -/
theorem claim_full_mac (fullId msgType : Nat) (body : List Nat)
    (secretKey : List Nat) (isFactory : Bool) (h : msgType ≠ 8) :
    (mkBaseFullMessage fullId msgType body secretKey isFactory).mac
      = some (fullMacClaim secretKey fullId msgType body) := by
  simp only [mkBaseFullMessage, fullMacClaim, generate_mac, leBytes_one, land_ffffffff,
    if_pos h]
  cases isFactory <;> cases body <;> simp [digitsToNat]

/-- Witness for C1 at the repository's own test message
(`full_id = 1223`, ADD_CREDIT, body 00993, key 0xAB×16). -/
theorem claim_full_mac_witness :
    (0 ≠ 8)
    ∧ (mkBaseFullMessage 1223 0 [0, 0, 9, 9, 3] (List.replicate 16 0xAB) false).mac
        = some (fullMacClaim (List.replicate 16 0xAB) 1223 0 [0, 0, 9, 9, 3]) :=
  ⟨by decide, claim_full_mac 1223 0 [0, 0, 9, 9, 3] (List.replicate 16 0xAB) false
    (by decide)⟩

/-- C6: key slicing is stable.  For every key of at least 16 bytes, the
Full message (and any keycode rendered from it) and the Small message
(and any keycode rendered from it) built with the whole key equal those
built with its first 16 bytes. -/
theorem claim_key_slicing_stable (secretKey : List Nat)
    (hlen : 16 ≤ secretKey.length)
    (fullId msgType : Nat) (body : List Nat) (isFactory : Bool)
    (pre suf sep : List Char) (groupLen : Nat) (obscured : Option Bool)
    (smallId smallType smallBody : Nat) (smallPre smallSep : List Char)
    (smallGroupLen : Nat) (keyDict : Nat → Char) (smallObscured : Bool) :
    mkBaseFullMessage fullId msgType body secretKey isFactory
      = mkBaseFullMessage fullId msgType body (secretKey.take 16) isFactory
    ∧ fullToKeycode (mkBaseFullMessage fullId msgType body secretKey isFactory)
        pre suf sep groupLen obscured
      = fullToKeycode (mkBaseFullMessage fullId msgType body (secretKey.take 16) isFactory)
        pre suf sep groupLen obscured
    ∧ mkSmallMessage smallId smallType smallBody secretKey
      = mkSmallMessage smallId smallType smallBody (secretKey.take 16)
    ∧ (mkSmallMessage smallId smallType smallBody secretKey).bind
        (fun bits => smallToKeycode bits smallPre smallSep smallGroupLen keyDict smallObscured)
      = (mkSmallMessage smallId smallType smallBody (secretKey.take 16)).bind
        (fun bits => smallToKeycode bits smallPre smallSep smallGroupLen keyDict smallObscured)
    := by
  have htake : (secretKey.take 16).take 16 = secretKey.take 16 := by
    simp [List.take_take]
  have hfull : mkBaseFullMessage fullId msgType body secretKey isFactory
      = mkBaseFullMessage fullId msgType body (secretKey.take 16) isFactory := by
    simp only [mkBaseFullMessage, htake]
  have hsmall : mkSmallMessage smallId smallType smallBody secretKey
      = mkSmallMessage smallId smallType smallBody (secretKey.take 16) := by
    simp only [mkSmallMessage, htake]
  exact ⟨hfull, by rw [hfull], hsmall, by rw [hsmall]⟩

/-- Witness for C6 with a concrete 32-byte key (the repository's own
test key `0xFB00A598×4 ∥ 0x02030405×4`). -/
theorem claim_key_slicing_stable_witness :
    (16 ≤ ([0xFB, 0x00, 0xA5, 0x98, 0xFB, 0x00, 0xA5, 0x98, 0xFB, 0x00, 0xA5, 0x98,
        0xFB, 0x00, 0xA5, 0x98, 0x02, 0x03, 0x04, 0x05, 0x02, 0x03, 0x04, 0x05,
        0x02, 0x03, 0x04, 0x05, 0x02, 0x03, 0x04, 0x05] : List Nat).length)
    ∧ mkSmallMessage 343 0 20
        [0xFB, 0x00, 0xA5, 0x98, 0xFB, 0x00, 0xA5, 0x98, 0xFB, 0x00, 0xA5, 0x98,
         0xFB, 0x00, 0xA5, 0x98, 0x02, 0x03, 0x04, 0x05, 0x02, 0x03, 0x04, 0x05,
         0x02, 0x03, 0x04, 0x05, 0x02, 0x03, 0x04, 0x05]
      = mkSmallMessage 343 0 20
        ([0xFB, 0x00, 0xA5, 0x98, 0xFB, 0x00, 0xA5, 0x98, 0xFB, 0x00, 0xA5, 0x98,
          0xFB, 0x00, 0xA5, 0x98, 0x02, 0x03, 0x04, 0x05, 0x02, 0x03, 0x04, 0x05,
          0x02, 0x03, 0x04, 0x05, 0x02, 0x03, 0x04, 0x05].take 16) :=
  ⟨by decide,
   (claim_key_slicing_stable _ (by decide) 343 0 [0, 0, 9, 9, 3] false
      ['*'] ['#'] [' '] 3 none 343 0 20 ['1'] [' '] 3 defaultKeyDict true).2.2.1⟩

/-- C9: a Link Mode 3 token renders as the claim states: digit 9, the
truncated device id digit `(device_id & 0xFFFFFFFF) mod 10`, 6 challenge
digits derived with the accessory key over `u32_le(accessory count)`,
then 6 outer MAC digits derived with the controller key over
`u32_le(controller count) ∥ u8(9) ∥ u8(truncated id) ∥
u32_le(challenge digits as a base-10 integer)` — each digit group via
hash mod `2^32`, zero-padded to 6 decimal digits, right-most 6 kept. -/
theorem claim_link_mode_3 (accessoryAspId controllerCommandCount accessoryCommandCount : Nat)
    (accessorySymKey controllerSymKey : List Nat)
    (ha : accessorySymKey.length = 16) (hc : controllerSymKey.length = 16) :
    originTokenToDigits
        (challenge_mode_3 accessoryAspId controllerCommandCount accessoryCommandCount
          accessorySymKey controllerSymKey)
      = linkMode3Claim accessoryAspId controllerCommandCount accessoryCommandCount
          accessorySymKey controllerSymKey := by
  have htr : accessoryAspId % 2 ^ 32 % 10 % 256 = accessoryAspId % 2 ^ 32 % 10 :=
    Nat.mod_eq_of_lt (lt_trans (Nat.mod_lt _ (by norm_num)) (by norm_num))
  have h9 : (9 : Nat) % 256 = 9 := by norm_num
  simp only [originTokenToDigits, challenge_mode_3, linkMode3Claim, digitsFromSiphash,
    land_ffffffff, leBytes_one, htr, h9, List.cons_append]

/-- Witness for C9 at the repository's own Link Mode 3 test vector. -/
theorem claim_link_mode_3_witness :
    (([0xC4, 0xB8, 0x40, 0x48, 0xCF, 0x04, 0x24, 0xA2, 0x5D, 0xC5, 0xE9, 0xD3,
        0xF0, 0x67, 0x40, 0x36] : List Nat).length = 16)
    ∧ ((List.replicate 8 0xFE ++ List.replicate 8 0xA2 : List Nat).length = 16)
    ∧ originTokenToDigits
        (challenge_mode_3 0x000200003322 15 2
          [0xC4, 0xB8, 0x40, 0x48, 0xCF, 0x04, 0x24, 0xA2, 0x5D, 0xC5, 0xE9, 0xD3,
           0xF0, 0x67, 0x40, 0x36]
          (List.replicate 8 0xFE ++ List.replicate 8 0xA2))
      = linkMode3Claim 0x000200003322 15 2
          [0xC4, 0xB8, 0x40, 0x48, 0xCF, 0x04, 0x24, 0xA2, 0x5D, 0xC5, 0xE9, 0xD3,
           0xF0, 0x67, 0x40, 0x36]
          (List.replicate 8 0xFE ++ List.replicate 8 0xA2) :=
  ⟨by decide, by decide,
   claim_link_mode_3 0x000200003322 15 2 _ _ (by decide) (by decide)⟩

/-! ## Anchor checks against the repository's own test vectors

These concrete evaluations tie the embedding to the published SipHash-2-4
reference vectors and to literal expected values from the repository's
test suite, confirming that the Lean definitions compute exactly what the
Python source computes. -/

/-- Reference SipHash-2-4 vectors (key `00 01 .. 0F`, messages `[]` and
`[0x00]`), matching the published test vectors of the SipHash paper. -/
theorem sipHash24_reference_vectors :
    sipHash24 (List.range 16) [] = 0x726fdb47dd0e0e31
    ∧ sipHash24 (List.range 16) [0] = 0x74f839c593dc67fd :=
  ⟨by decide, by decide⟩

/-- `pseudorandom_bits` vectors from `test_utils.py`: seed `0b0111` gives
`0b111010100010110`, the empty seed gives `0b100011011100010`. -/
theorem pseudorandom_bits_vectors :
    pseudorandom_bits [false, true, true, true] 15
      = [true, true, true, false, true, false, true, false,
         false, false, true, false, true, true, false]
    ∧ pseudorandom_bits [] 15
      = [true, false, false, false, true, true, false, true,
         true, true, false, false, false, true, false] :=
  ⟨by decide, by decide⟩

/-- `full_obscure` vector from `test_utils.py`:
`12345678901250 → 57458927901250`. -/
theorem full_obscure_vector :
    full_obscure [1, 2, 3, 4, 5, 6, 7, 8, 9, 0, 1, 2, 5, 0]
      = [5, 7, 4, 5, 8, 9, 2, 7, 9, 0, 1, 2, 5, 0] := by decide

/-- `formatLast` keeps leading zeros below 10^6 and drops high decimal
digits at 7 or more digits (the truncation rule stated by C1). -/
theorem formatLast_truncation_vectors :
    formatLast 6 42 = [0, 0, 0, 0, 4, 2]
    ∧ formatLast 6 1234567 = [2, 3, 4, 5, 6, 7]
    ∧ formatLast 6 999999 = [9, 9, 9, 9, 9, 9] :=
  ⟨by decide, by decide, by decide⟩

/-- The Full message of `test_full.py` (`full_id = 1223`, ADD_CREDIT,
body `00993`, key 0xAB×16) renders to `*007 009 936 639 04#` unobscured
and to `*885 190 556 639 04#` with the default obscuring. -/
theorem full_keycode_vectors :
    fullToKeycode (mkBaseFullMessage 1223 0 [0, 0, 9, 9, 3] (List.replicate 16 0xAB) false)
        (['*']) (['#']) ([' ']) 3 (some false)
      = "*007 009 936 639 04#".data
    ∧ fullToKeycode (mkBaseFullMessage 1223 0 [0, 0, 9, 9, 3] (List.replicate 16 0xAB) false)
        (['*']) (['#']) ([' ']) 3 none
      = "*885 190 556 639 04#".data :=
  ⟨by decide, by decide⟩

set_option maxRecDepth 4000 in
/-- The Small message of `test_small.py` (`id = 100`, ADD_CREDIT, body
10, key 0xFF×16) renders to `152 424 422 522 322` with the defaults. -/
theorem small_keycode_vector :
    (mkSmallMessage 100 0 10 (List.replicate 16 0xFF)).toOption.bind
      (fun bits => (smallToKeycode bits ['1'] [' '] 3 defaultKeyDict true).toOption)
      = some "152 424 422 522 322".data := by decide

/-- `generate_mac` vector from `test_utils.py`: SipHash of byte `0x00`
under the key `38 79 2F FC 24 1C 2B C7 C8 CB F6 24 59 3B 57 63`, masked
to 32 bits and formatted, yields the digits `875838`. -/
theorem utils_generate_mac_vector :
    digitsFromSiphash
      (sipHash24
        [0x38, 0x79, 0x2F, 0xFC, 0x24, 0x1C, 0x2B, 0xC7,
         0xC8, 0xCB, 0xF6, 0x24, 0x59, 0x3B, 0x57, 0x63] [0])
      = [8, 7, 5, 8, 3, 8] := by decide

/-- Link Mode 3 vector of `test_nexus_channel_origin_commands.py`
(`TestChannelOriginActions`): digits `90445034581275`. -/
theorem link_mode_3_digit_vector :
    originTokenToDigits
      (challenge_mode_3 0x010294837158 15 312
        (List.replicate 8 0xFA ++ List.replicate 8 0x01)
        (List.replicate 8 0xFE ++ List.replicate 8 0xA2))
      = [9, 0, 4, 4, 5, 0, 3, 4, 5, 8, 1, 2, 7, 5] := by decide

/-- The second Link Mode 3 vector (`TestLinkCommandToken`): digits
`90382847429307`. -/
theorem link_mode_3_digit_vector_two :
    originTokenToDigits
      (challenge_mode_3 0x000200003322 15 2
        [0xC4, 0xB8, 0x40, 0x48, 0xCF, 0x04, 0x24, 0xA2, 0x5D, 0xC5, 0xE9, 0xD3,
         0xF0, 0x67, 0x40, 0x36]
        (List.replicate 8 0xFE ++ List.replicate 8 0xA2))
      = [9, 0, 3, 8, 2, 8, 4, 7, 4, 2, 9, 3, 0, 7] := by decide

/-- The UART derived key of `test_passthrough_uart.py` under the claimed
(concatenating) derivation reproduces the test's expected bytes. -/
theorem uart_test_vector :
    uartSecurityKeyClaim (List.replicate 14 1 ++ [0x43, 0x51])
      = [0x12, 0xE4, 0x87, 0x62, 0x5C, 0x6B, 0x88, 0xF4,
         0x1E, 0xE4, 0x0B, 0x16, 0xB4, 0xC9, 0x84, 0xF2] := by decide

/-- The Extended Small construction at a collision-free id succeeds with
the requested id unchanged (`id = 102`, `days = 30`, key 0xAB×16). -/
theorem extended_small_no_collision_vector :
    (extendedSmallMessage 102 (.num 30) (List.replicate 16 0xAB)).toOption.map Prod.snd
      = some 102 := by rfl

end NexusKeycode
